import Mathlib

/-!
Verification of the slide navigation engine (`src/slides/js/slide-engine.js`).

The engine is a single-threaded, event-driven controller: a `SlideEngine`
object owning a list of sections (each with an `active` CSS class flag),
a `currentIndex`, a transition lock `isTransitioning`, and two optional
display widgets (a progress fill and a page counter).  `goTo` performs a
two-phase transition driven by two staggered `setTimeout` callbacks; we
model the timeout queue explicitly with a `pendingTimer` field and a
`timer` event that fires the next due callback (at most one callback is
pending at any time, because `goTo` refuses to start while the lock is
held, so a single slot is a faithful model of the timeout queue).

JavaScript numbers that only ever hold small integers (`currentIndex`,
`totalSections`, `goTo` arguments) are modelled as `Int`/`Nat`; pointer
and touch coordinates are modelled as `ℚ`.
-/

namespace SlideEngine

/-- A pending `setTimeout` callback inside `goTo`:
`activate target` is the 200 ms callback (activate the target section,
update index and widgets, schedule the release), `release` is the 300 ms
callback (clear `isTransitioning`). -/
inductive Timer where
  | activate (target : Nat)
  | release
deriving DecidableEq, Repr

/-- The observable state of the engine after `DOMContentLoaded`:
`active` holds each section's `active` class flag in document order;
`progressFill` is `none` when the document has no `.progress-fill`
element and otherwise `some` of its width in percent; `pageCounter`
likewise holds the `.page-counter` innerHTML; `listeners` records
whether the input listeners were attached (they are not when zero
sections are found); `startX`/`startY` are the touch-start coordinates
captured by `setupTouch`; `animLog` records each `animateSection` call
(by section index), so that "no animation replay" is expressible. -/
structure Engine where
  active : List Bool
  currentIndex : Int
  isTransitioning : Bool
  totalSections : Nat
  progressFill : Option ℚ
  pageCounter : Option String
  listeners : Bool
  startX : ℚ
  startY : ℚ
  pendingTimer : Option Timer
  animLog : List Nat
deriving DecidableEq, Repr

/-- `((this.currentIndex + 1) / this.totalSections) * 100` (source line 158). -/
def percent (i : Int) (n : Nat) : ℚ :=
  ((i + 1 : Int) : ℚ) / (n : ℚ) * 100

/-- `updateProgress` (source lines 155-160): if the `.progress-fill`
element is absent, return; otherwise set its width to the percent. -/
def updateProgress (s : Engine) : Engine :=
  { s with progressFill :=
      s.progressFill.map (fun _ => percent s.currentIndex s.totalSections) }

/-- The innerHTML written by `updateCounter` (source line 165):
a span holding the 1-based index, then a separator, then the total. -/
def counterHTML (i : Int) (n : Nat) : String :=
  "<span class=\"current\">" ++ toString (i + 1) ++ "</span> / " ++ toString n

/-- `updateCounter` (source lines 162-166): if the `.page-counter`
element is absent, return; otherwise set its innerHTML. -/
def updateCounter (s : Engine) : Engine :=
  { s with pageCounter :=
      s.pageCounter.map (fun _ => counterHTML s.currentIndex s.totalSections) }

/-- `animateSection` (source lines 145-153): restart the animations of
the given section.  In the model we record the call in `animLog`. -/
def animateSection (idx : Nat) (s : Engine) : Engine :=
  { s with animLog := s.animLog ++ [idx] }

/-- `goTo(index)` (source lines 120-143), synchronous part: the guard,
then acquire the lock, remove the `active` class from the current
section, and schedule the 200 ms activation callback. -/
def goTo (index : Int) (s : Engine) : Engine :=
  if index = s.currentIndex ∨ index < 0 ∨ (s.totalSections : Int) ≤ index
      ∨ s.isTransitioning then s
  else
    { s with
      isTransitioning := true
      active := s.active.set s.currentIndex.toNat false
      pendingTimer := some (Timer.activate index.toNat) }

/-- Firing the pending `setTimeout` callback, if any.  The 200 ms
callback (source lines 132-142) adds the `active` class to the target,
replays its animations, updates `currentIndex` and both widgets, and
schedules the 300 ms callback, which clears `isTransitioning`. -/
def fire (s : Engine) : Engine :=
  match s.pendingTimer with
  | none => s
  | some (Timer.activate target) =>
      updateCounter (updateProgress (animateSection target
        { s with
          active := s.active.set target true
          currentIndex := (target : Int)
          pendingTimer := some Timer.release }))
  | some Timer.release =>
      { s with isTransitioning := false, pendingTimer := none }

/-- `next()` (source lines 110-113). -/
def next (s : Engine) : Engine :=
  if s.isTransitioning ∨ (s.totalSections : Int) - 1 ≤ s.currentIndex then s
  else goTo (s.currentIndex + 1) s

/-- `prev()` (source lines 115-118). -/
def prev (s : Engine) : Engine :=
  if s.isTransitioning ∨ s.currentIndex ≤ 0 then s
  else goTo (s.currentIndex - 1) s

/-- The keys recognised by `handleKeydown` (source lines 40-68). -/
inductive Key where
  | arrowRight | arrowDown | space | pageDown
  | arrowLeft | arrowUp | pageUp
  | home | endKey | keyF | other
deriving DecidableEq, Repr

/-- `handleKeydown` (source lines 40-68).  The fullscreen toggle only
touches browser fullscreen state, which is outside the modelled state,
so `keyF` leaves the engine state unchanged. -/
def handleKeydown (k : Key) (s : Engine) : Engine :=
  match k with
  | Key.arrowRight | Key.arrowDown | Key.space | Key.pageDown => next s
  | Key.arrowLeft | Key.arrowUp | Key.pageUp => prev s
  | Key.home => goTo 0 s
  | Key.endKey => goTo ((s.totalSections : Int) - 1) s
  | Key.keyF => s
  | Key.other => s

/-- `handleClick` (source lines 70-82): `interactive` is whether
`e.target.closest('a, button, input, select, textarea')` found an
interactive ancestor; `x` is `e.clientX` and `width` is
`window.innerWidth`. -/
def handleClick (interactive : Bool) (x width : ℚ) (s : Engine) : Engine :=
  if interactive then s
  else if width * (65 / 100) < x then next s
  else if x < width * (35 / 100) then prev s
  else s

/-- The `touchstart` listener (source lines 88-91): record the start
coordinates. -/
def touchStart (x y : ℚ) (s : Engine) : Engine :=
  { s with startX := x, startY := y }

/-- The `touchend` listener (source lines 93-107): a horizontal swipe
whose displacement dominates the vertical one and exceeds 50 px
navigates; leftward (positive `diffX`) advances, rightward retreats. -/
def touchEnd (endX endY : ℚ) (s : Engine) : Engine :=
  if |s.startX - endX| > |s.startY - endY| ∧ |s.startX - endX| > 50 then
    if s.startX - endX > 0 then next s else prev s
  else s

/-- The events the engine can receive after initialization.  Input
events (`keydown`, `click`, `touchstart`, `touchend`) reach the
handlers only when the listeners were attached; `callNext`, `callPrev`
and `callGoTo` are direct method calls; `timer` fires the pending
`setTimeout` callback. -/
inductive Event where
  | keydown (k : Key)
  | click (interactive : Bool) (x width : ℚ)
  | touchstart (x y : ℚ)
  | touchend (x y : ℚ)
  | callNext
  | callPrev
  | callGoTo (t : Int)
  | timer
deriving DecidableEq, Repr

/-- One step of the event loop. -/
def step (s : Engine) : Event → Engine
  | Event.keydown k => if s.listeners then handleKeydown k s else s
  | Event.click i x w => if s.listeners then handleClick i x w s else s
  | Event.touchstart x y => if s.listeners then touchStart x y s else s
  | Event.touchend x y => if s.listeners then touchEnd x y s else s
  | Event.callNext => next s
  | Event.callPrev => prev s
  | Event.callGoTo t => goTo t s
  | Event.timer => fire s

/-- Run a sequence of events. -/
def run (s : Engine) (es : List Event) : Engine :=
  es.foldl step s

/-- `init` (source lines 14-38), i.e. the `DOMContentLoaded` callback:
`n` sections are found, none of them initially carrying the `active`
class; `hasProgress`/`hasCounter` say whether the two widget elements
exist, `p0`/`c0` being their initial (markup-given) contents.  With
zero sections the callback returns at once; otherwise it marks section
0 active, updates both widgets, attaches the listeners and replays
section 0's animations. -/
def initEngine (n : Nat) (hasProgress hasCounter : Bool) (p0 : ℚ) (c0 : String) :
    Engine :=
  let base : Engine :=
    { active := List.replicate n false
      currentIndex := 0
      isTransitioning := false
      totalSections := n
      progressFill := if hasProgress then some p0 else none
      pageCounter := if hasCounter then some c0 else none
      listeners := false
      startX := 0
      startY := 0
      pendingTimer := none
      animLog := [] }
  if n = 0 then base
  else
    animateSection 0
      { updateCounter (updateProgress { base with active := base.active.set 0 true })
        with listeners := true }

/-- A state is reachable when some event sequence leads to it from the
initialized engine. -/
def Reachable (n : Nat) (hp hc : Bool) (p0 : ℚ) (c0 : String) (s : Engine) : Prop :=
  ∃ es : List Event, run (initEngine n hp hc p0 c0) es = s

/-- The `active`-class configuration in which exactly the section at
index `i` (of `n` sections) carries the class. -/
def activeOnly (n i : Nat) : List Bool :=
  (List.replicate n false).set i true

/-- Text extraction from an HTML fragment: drop every character that
lies between an opening angle bracket and the matching closing one
(the DOM textContent of a flat fragment).  The second argument says
whether we are currently inside a tag. -/
def stripTags : List Char → Bool → List Char
  | [], _ => []
  | c :: cs, inTag =>
      if c = '<' then stripTags cs true
      else if c = '>' then stripTags cs false
      else if inTag then stripTags cs true
      else c :: stripTags cs false

/-- The text content of a flat HTML fragment. -/
def textContent (s : String) : String :=
  List.asString (stripTags s.data false)

/-- A character list free of angle brackets (so tag stripping keeps it
verbatim outside a tag and drops it inside one). -/
def tagFree (l : List Char) : Prop :=
  ∀ c ∈ l, c ≠ '<' ∧ c ≠ '>'

/-- The reachability invariant of an engine initialized with `n ≥ 1`
sections: `totalSections` and the section list length are `n`; each
widget, when present, shows the pure projection of `currentIndex`;
`currentIndex` is in range; and in each phase of a transition the lock
and the `active` classes are in the expected configuration (all clear
between the deactivation and the activation callback, exactly the
current section active otherwise). -/
def Inv (n : Nat) (hp hc : Bool) (s : Engine) : Prop :=
  s.totalSections = n ∧
  s.active.length = n ∧
  s.progressFill = (if hp then some (percent s.currentIndex n) else none) ∧
  s.pageCounter = (if hc then some (counterHTML s.currentIndex n) else none) ∧
  0 ≤ s.currentIndex ∧ s.currentIndex < (n : Int) ∧
  (s.pendingTimer = none →
    s.isTransitioning = false ∧ s.active = activeOnly n s.currentIndex.toNat) ∧
  (∀ t, s.pendingTimer = some (Timer.activate t) →
    s.isTransitioning = true ∧ t < n ∧ s.active = List.replicate n false) ∧
  (s.pendingTimer = some Timer.release →
    s.isTransitioning = true ∧ s.active = activeOnly n s.currentIndex.toNat)

/-! ### List helpers -/

lemma replicate_set_false (n i : Nat) :
    (List.replicate n false).set i false = List.replicate n false := by
  induction n generalizing i with
  | zero => simp
  | succ m ih =>
    cases i with
    | zero => simp [List.replicate_succ]
    | succ j => simp [List.replicate_succ, ih]

lemma set_activeOnly (n i : Nat) :
    (activeOnly n i).set i false = List.replicate n false := by
  simp [activeOnly, List.set_set, replicate_set_false]

lemma activeOnly_cons_zero (m : Nat) :
    activeOnly (m + 1) 0 = true :: List.replicate m false := by
  simp [activeOnly, List.replicate_succ]

lemma activeOnly_cons_succ (m j : Nat) :
    activeOnly (m + 1) (j + 1) = false :: activeOnly m j := by
  simp [activeOnly, List.replicate_succ]

lemma count_replicate_false (n : Nat) :
    (List.replicate n false).count true = 0 := by
  induction n with
  | zero => rfl
  | succ m ih => simp [List.replicate_succ, List.count_cons, ih]

lemma count_activeOnly (n i : Nat) (h : i < n) :
    (activeOnly n i).count true = 1 := by
  induction n generalizing i with
  | zero => omega
  | succ m ih =>
    cases i with
    | zero => simp [activeOnly_cons_zero, List.count_cons, count_replicate_false]
    | succ j =>
      have hj : j < m := by omega
      simp [activeOnly_cons_succ, List.count_cons, ih j hj]

lemma length_activeOnly (n i : Nat) : (activeOnly n i).length = n := by
  simp [activeOnly]

/-! ### Run helpers -/

lemma run_nil (s : Engine) : run s [] = s := rfl

lemma run_cons (s : Engine) (e : Event) (es : List Event) :
    run s (e :: es) = run (step s e) es := rfl

lemma run_append (s : Engine) (es1 es2 : List Event) :
    run s (es1 ++ es2) = run (run s es1) es2 := by
  simp [run]

lemma reachable_run {n : Nat} {hp hc : Bool} {p0 : ℚ} {c0 : String} {s : Engine}
    (h : Reachable n hp hc p0 c0 s) (es : List Event) :
    Reachable n hp hc p0 c0 (run s es) := by
  obtain ⟨es0, h0⟩ := h
  exact ⟨es0 ++ es, by rw [run_append, h0]⟩

/-! ### Zero sections: the controller is inert -/

lemma step_inert (hp hc : Bool) (p0 : ℚ) (c0 : String) (e : Event) :
    step (initEngine 0 hp hc p0 c0) e = initEngine 0 hp hc p0 c0 := by
  have hL : (initEngine 0 hp hc p0 c0).listeners = false := by simp [initEngine]
  have hT : (initEngine 0 hp hc p0 c0).totalSections = 0 := by simp [initEngine]
  have hC : (initEngine 0 hp hc p0 c0).currentIndex = 0 := by simp [initEngine]
  have hP : (initEngine 0 hp hc p0 c0).pendingTimer = none := by simp [initEngine]
  cases e with
  | keydown k => simp [step, hL]
  | click i x w => simp [step, hL]
  | touchstart x y => simp [step, hL]
  | touchend x y => simp [step, hL]
  | callNext =>
    simp only [step, next, hC, hT]
    rw [if_pos (by omega)]
  | callPrev =>
    simp only [step, prev, hC]
    rw [if_pos (by omega)]
  | callGoTo t =>
    simp only [step, goTo, hC, hT]
    rw [if_pos (by omega)]
  | timer => simp [step, fire, hP]

lemma run_inert (hp hc : Bool) (p0 : ℚ) (c0 : String) (es : List Event) :
    run (initEngine 0 hp hc p0 c0) es = initEngine 0 hp hc p0 c0 := by
  induction es with
  | nil => rfl
  | cons e es ih => rw [run_cons, step_inert]; exact ih

/-! ### Invariant preservation -/

lemma goTo_inv {n : Nat} {hp hc : Bool} {s : Engine} (h : Inv n hp hc s) (t : Int) :
    Inv n hp hc (goTo t s) := by
  obtain ⟨hts, hlen, hpf, hpc, h0, h1, hnone, hact, hrel⟩ := h
  unfold goTo
  split
  · exact ⟨hts, hlen, hpf, hpc, h0, h1, hnone, hact, hrel⟩
  · rename_i hg
    push_neg at hg
    obtain ⟨hg1, hg2, hg3, hg4⟩ := hg
    have hptnone : s.pendingTimer = none := by
      rcases hpt : s.pendingTimer with _ | ti
      · rfl
      · cases ti with
        | activate u => exact absurd (hact u hpt).1 hg4
        | release => exact absurd (hrel hpt).1 hg4
    obtain ⟨-, hac⟩ := hnone hptnone
    rw [hts] at hg3
    refine ⟨hts, by simpa using hlen, hpf, hpc, h0, h1, ?_, ?_, ?_⟩
    · intro habs; simp at habs
    · intro u hu
      have hu2 : u = t.toNat := by simpa using hu.symm
      subst hu2
      refine ⟨rfl, by omega, ?_⟩
      show s.active.set s.currentIndex.toNat false = List.replicate n false
      rw [hac, set_activeOnly]
    · intro habs; simp at habs

lemma fire_inv {n : Nat} {hp hc : Bool} {s : Engine} (h : Inv n hp hc s) :
    Inv n hp hc (fire s) := by
  obtain ⟨hts, hlen, hpf, hpc, h0, h1, hnone, hact, hrel⟩ := h
  rcases hpt : s.pendingTimer with _ | ti
  · simpa [fire, hpt] using ⟨hts, hlen, hpf, hpc, h0, h1, hnone, hact, hrel⟩
  · cases ti with
    | activate u =>
      obtain ⟨htr, hulen, hrep⟩ := hact u hpt
      simp only [fire, hpt, updateCounter, updateProgress, animateSection]
      refine ⟨hts, ?_, ?_, ?_, ?_, ?_, ?_, ?_, ?_⟩
      · show (s.active.set u true).length = n
        simp [hlen]
      · show Option.map (fun _ => percent (↑u) s.totalSections) s.progressFill =
          if hp = true then some (percent (↑u) n) else none
        rw [hpf, hts]
        cases hp <;> simp
      · show Option.map (fun _ => counterHTML (↑u) s.totalSections) s.pageCounter =
          if hc = true then some (counterHTML (↑u) n) else none
        rw [hpc, hts]
        cases hc <;> simp
      · show (0 : Int) ≤ (u : Int)
        exact_mod_cast Nat.zero_le u
      · show (u : Int) < (n : Int)
        exact_mod_cast hulen
      · intro habs; simp at habs
      · intro v hv; simp at hv
      · intro _h
        refine ⟨htr, ?_⟩
        show s.active.set u true = activeOnly n (Int.toNat (u : Int))
        rw [hrep]
        simp [activeOnly]
    | release =>
      obtain ⟨htr, hac⟩ := hrel hpt
      simp only [fire, hpt]
      refine ⟨hts, hlen, hpf, hpc, h0, h1, ?_, ?_, ?_⟩
      · intro _h; exact ⟨rfl, hac⟩
      · intro v hv; simp at hv
      · intro habs; simp at habs

lemma next_inv {n : Nat} {hp hc : Bool} {s : Engine} (h : Inv n hp hc s) :
    Inv n hp hc (next s) := by
  unfold next
  split
  · exact h
  · exact goTo_inv h _

lemma prev_inv {n : Nat} {hp hc : Bool} {s : Engine} (h : Inv n hp hc s) :
    Inv n hp hc (prev s) := by
  unfold prev
  split
  · exact h
  · exact goTo_inv h _

lemma handleKeydown_inv {n : Nat} {hp hc : Bool} {s : Engine} (h : Inv n hp hc s)
    (k : Key) : Inv n hp hc (handleKeydown k s) := by
  cases k <;>
    simp only [handleKeydown] <;>
    first
      | exact next_inv h
      | exact prev_inv h
      | exact goTo_inv h _
      | exact h

lemma handleClick_inv {n : Nat} {hp hc : Bool} {s : Engine} (h : Inv n hp hc s)
    (i : Bool) (x w : ℚ) : Inv n hp hc (handleClick i x w s) := by
  unfold handleClick
  split
  · exact h
  · split
    · exact next_inv h
    · split
      · exact prev_inv h
      · exact h

lemma touchStart_inv {n : Nat} {hp hc : Bool} {s : Engine} (h : Inv n hp hc s)
    (x y : ℚ) : Inv n hp hc (touchStart x y s) := by
  obtain ⟨hts, hlen, hpf, hpc, h0, h1, hnone, hact, hrel⟩ := h
  exact ⟨hts, hlen, hpf, hpc, h0, h1, hnone, hact, hrel⟩

lemma touchEnd_inv {n : Nat} {hp hc : Bool} {s : Engine} (h : Inv n hp hc s)
    (x y : ℚ) : Inv n hp hc (touchEnd x y s) := by
  unfold touchEnd
  split
  · split
    · exact next_inv h
    · exact prev_inv h
  · exact h

lemma step_inv {n : Nat} {hp hc : Bool} {s : Engine} (h : Inv n hp hc s)
    (e : Event) : Inv n hp hc (step s e) := by
  cases e with
  | keydown k =>
    simp only [step]; split
    · exact handleKeydown_inv h k
    · exact h
  | click i x w =>
    simp only [step]; split
    · exact handleClick_inv h i x w
    · exact h
  | touchstart x y =>
    simp only [step]; split
    · exact touchStart_inv h x y
    · exact h
  | touchend x y =>
    simp only [step]; split
    · exact touchEnd_inv h x y
    · exact h
  | callNext => exact next_inv h
  | callPrev => exact prev_inv h
  | callGoTo t => exact goTo_inv h t
  | timer => exact fire_inv h

lemma run_inv {n : Nat} {hp hc : Bool} {s : Engine} (h : Inv n hp hc s)
    (es : List Event) : Inv n hp hc (run s es) := by
  induction es generalizing s with
  | nil => exact h
  | cons e es ih => exact ih (step_inv h e)

lemma init_inv (n : Nat) (hp hc : Bool) (p0 : ℚ) (c0 : String) (hn : n ≠ 0) :
    Inv n hp hc (initEngine n hp hc p0 c0) := by
  simp only [initEngine, if_neg hn, animateSection, updateCounter, updateProgress]
  refine ⟨rfl, ?_, ?_, ?_, ?_, ?_, ?_, ?_, ?_⟩
  · show ((List.replicate n false).set 0 true).length = n
    simp
  · show Option.map (fun _ => percent 0 n) (if hp = true then some p0 else none) =
      if hp = true then some (percent 0 n) else none
    cases hp <;> simp
  · show Option.map (fun _ => counterHTML 0 n) (if hc = true then some c0 else none) =
      if hc = true then some (counterHTML 0 n) else none
    cases hc <;> simp
  · show (0 : Int) ≤ 0
    exact le_refl 0
  · show (0 : Int) < (n : Int)
    exact_mod_cast Nat.pos_of_ne_zero hn
  · intro _h
    refine ⟨rfl, ?_⟩
    show (List.replicate n false).set 0 true = activeOnly n (Int.toNat 0)
    simp [activeOnly]
  · intro v hv; simp at hv
  · intro habs; simp at habs

lemma reachable_inv {n : Nat} {hp hc : Bool} {p0 : ℚ} {c0 : String} {s : Engine}
    (hn : n ≠ 0) (h : Reachable n hp hc p0 c0 s) : Inv n hp hc s := by
  obtain ⟨es, rfl⟩ := h
  exact run_inv (init_inv n hp hc p0 c0 hn) es

/-! ### Text content of the counter fragment -/

lemma digitChar_tagFree (m : Nat) :
    Nat.digitChar m ≠ '<' ∧ Nat.digitChar m ≠ '>' := by
  rcases Nat.lt_or_ge m 16 with h | h
  · interval_cases m <;> decide
  · unfold Nat.digitChar
    iterate 16 rw [if_neg (by omega)]
    decide

lemma toDigitsCore_tagFree (fuel : Nat) : ∀ (m : Nat) (ds : List Char),
    tagFree ds → tagFree (Nat.toDigitsCore 10 fuel m ds) := by
  induction fuel with
  | zero =>
    intro m ds h
    simpa [Nat.toDigitsCore] using h
  | succ f ih =>
    intro m ds h
    have hcons : tagFree (Nat.digitChar (m % 10) :: ds) := by
      intro c hc
      rcases List.mem_cons.mp hc with rfl | hmem
      · exact digitChar_tagFree _
      · exact h c hmem
    simp only [Nat.toDigitsCore]
    split
    · exact hcons
    · exact ih _ _ hcons

lemma natRepr_tagFree (m : Nat) : tagFree (Nat.repr m).data := by
  have h : (Nat.repr m).data = Nat.toDigits 10 m := rfl
  rw [h]
  exact toDigitsCore_tagFree _ _ _ (by intro c hc; simp at hc)

lemma natToString_tagFree (m : Nat) : tagFree (toString m).data :=
  natRepr_tagFree m

lemma intToString_tagFree (i : Int) : tagFree (toString i).data := by
  cases i with
  | ofNat m => exact natRepr_tagFree m
  | negSucc m =>
    have h : toString (Int.negSucc m) = "-" ++ Nat.repr (m + 1) := rfl
    rw [h]
    intro c hc
    rw [String.data_append] at hc
    rcases List.mem_append.mp hc with h1 | h2
    · have hd : String.data "-" = ['-'] := rfl
      rw [hd] at h1
      rcases List.mem_singleton.mp h1 with rfl
      exact ⟨by decide, by decide⟩
    · exact natRepr_tagFree _ c h2

lemma stripTags_open (l : List Char) :
    stripTags ('<' :: l) false = stripTags l true := by
  simp [stripTags]

lemma stripTags_close (l : List Char) :
    stripTags ('>' :: l) true = stripTags l false := by
  simp [stripTags]

lemma stripTags_in {l : List Char} (h : tagFree l) (r : List Char) :
    stripTags (l ++ r) true = stripTags r true := by
  induction l with
  | nil => simp
  | cons c cs ih =>
    have hc := h c (by simp)
    have hcs : tagFree cs := fun d hd => h d (by simp [hd])
    simp only [List.cons_append, stripTags, if_neg hc.1, if_neg hc.2, if_pos rfl]
    exact ih hcs

lemma stripTags_out {l : List Char} (h : tagFree l) (r : List Char) :
    stripTags (l ++ r) false = l ++ stripTags r false := by
  induction l with
  | nil => simp
  | cons c cs ih =>
    have hc := h c (by simp)
    have hcs : tagFree cs := fun d hd => h d (by simp [hd])
    simp only [List.cons_append, stripTags, if_neg hc.1, if_neg hc.2]
    rw [if_neg (by simp)]
    exact congrArg (c :: ·) (ih hcs)

lemma stripTags_free {l : List Char} (h : tagFree l) : stripTags l false = l := by
  have h2 := stripTags_out h []
  simpa [stripTags] using h2

lemma stripTags_counter_shape (b d : List Char) (hb : tagFree b) (hd : tagFree d) :
    stripTags (("<span class=\"current\">").data ++
      (b ++ (("</span> / ").data ++ d))) false = b ++ ((" / ").data ++ d) := by
  have hin1 : tagFree (("span class=\"current\"").data) := by unfold tagFree; decide
  have hin2 : tagFree (("/span").data) := by unfold tagFree; decide
  have hsp : tagFree ((" / ").data) := by unfold tagFree; decide
  have h1 : ("<span class=\"current\">").data ++ (b ++ (("</span> / ").data ++ d))
      = '<' :: (("span class=\"current\"").data ++ ('>' ::
          (b ++ ('<' :: (("/span").data ++ ('>' :: ((" / ").data ++ d))))))) := by
    simp
  rw [h1, stripTags_open, stripTags_in hin1, stripTags_close, stripTags_out hb,
    stripTags_open, stripTags_in hin2, stripTags_close, stripTags_out hsp,
    stripTags_free hd]

lemma textContent_counterHTML (i : Int) (n : Nat) :
    textContent (counterHTML i n) = toString (i + 1) ++ " / " ++ toString n := by
  apply String.ext
  show stripTags (counterHTML i n).data false
      = (toString (i + 1) ++ " / " ++ toString n).data
  have hdata : (counterHTML i n).data
      = ("<span class=\"current\">").data ++ ((toString (i + 1)).data ++
          (("</span> / ").data ++ (toString n).data)) := by
    simp [counterHTML, List.append_assoc]
  rw [hdata, stripTags_counter_shape _ _ (intToString_tagFree _) (natToString_tagFree n)]
  simp [List.append_assoc]

/-! ### Acceptance of a valid transition request -/

lemma goTo_accepted {s : Engine} {t : Int} (h1 : t ≠ s.currentIndex) (h2 : 0 ≤ t)
    (h3 : t < (s.totalSections : Int)) (h4 : s.isTransitioning = false) :
    goTo t s = { s with
      isTransitioning := true
      active := s.active.set s.currentIndex.toNat false
      pendingTimer := some (Timer.activate t.toNat) } := by
  unfold goTo
  rw [if_neg]
  rintro (ha | hb | hc | hd)
  · exact h1 ha
  · omega
  · omega
  · simp [h4] at hd

lemma next_accepted {s : Engine} (h4 : s.isTransitioning = false)
    (h5 : s.currentIndex < (s.totalSections : Int) - 1) :
    next s = goTo (s.currentIndex + 1) s := by
  unfold next
  rw [if_neg]
  rintro (ha | hb)
  · simp [h4] at ha
  · omega

lemma prev_accepted {s : Engine} (h4 : s.isTransitioning = false)
    (h5 : 0 < s.currentIndex) :
    prev s = goTo (s.currentIndex - 1) s := by
  unfold prev
  rw [if_neg]
  rintro (ha | hb)
  · simp [h4] at ha
  · omega

/-! ### The claims -/

/-- Claim C3: `goTo(target)` with an out-of-range target, a redundant
target, or a transition in flight is a silent no-op: the entire state
(index, lock, active classes, widgets, animation log) is unchanged. -/
theorem claim3_goTo_silent_noop (s : Engine) (t : Int)
    (h : t = s.currentIndex ∨ t < 0 ∨ (s.totalSections : Int) ≤ t
      ∨ s.isTransitioning = true) :
    goTo t s = s := by
  unfold goTo
  rw [if_pos]
  rcases h with h | h | h | h
  · exact Or.inl h
  · exact Or.inr (Or.inl h)
  · exact Or.inr (Or.inr (Or.inl h))
  · exact Or.inr (Or.inr (Or.inr h))

/-- Witness for C3: `goTo 7` on a freshly initialized 5-section engine
leaves the state unchanged. -/
theorem claim3_goTo_silent_noop_witness :
    goTo 7 (initEngine 5 true true 0 "") = initEngine 5 true true 0 "" :=
  claim3_goTo_silent_noop (initEngine 5 true true 0 "") 7 (by decide)

/-- Claim C5: `next` is a no-op when the lock is held or the index is
last, else it requests `goTo (currentIndex + 1)`; `prev` symmetrically;
hence repeated `prev` at index 0 and repeated `next` at the last index
leave the state unchanged. -/
theorem claim5_next_prev_boundary (s : Engine) :
    (s.isTransitioning = true ∨ (s.totalSections : Int) - 1 ≤ s.currentIndex →
      next s = s) ∧
    (s.isTransitioning = false → s.currentIndex < (s.totalSections : Int) - 1 →
      next s = goTo (s.currentIndex + 1) s) ∧
    (s.isTransitioning = true ∨ s.currentIndex ≤ 0 → prev s = s) ∧
    (s.isTransitioning = false → 0 < s.currentIndex →
      prev s = goTo (s.currentIndex - 1) s) ∧
    (s.currentIndex = 0 → ∀ k : Nat, Nat.iterate prev k s = s) ∧
    ((s.totalSections : Int) - 1 ≤ s.currentIndex →
      ∀ k : Nat, Nat.iterate next k s = s) := by
  have hnextid : s.isTransitioning = true ∨ (s.totalSections : Int) - 1 ≤ s.currentIndex →
      next s = s := by
    intro h
    unfold next
    rw [if_pos]
    rcases h with h | h
    · exact Or.inl h
    · exact Or.inr h
  have hprevid : s.isTransitioning = true ∨ s.currentIndex ≤ 0 → prev s = s := by
    intro h
    unfold prev
    rw [if_pos]
    rcases h with h | h
    · exact Or.inl h
    · exact Or.inr h
  refine ⟨hnextid, fun h4 h5 => next_accepted h4 h5, hprevid,
    fun h4 h5 => prev_accepted h4 h5, ?_, ?_⟩
  · intro h0 k
    exact Function.iterate_fixed (hprevid (Or.inr (by omega))) k
  · intro hlast k
    exact Function.iterate_fixed (hnextid (Or.inr hlast)) k

/-- Witness for C5: on a fresh 3-section engine at index 0, `prev` (and
five iterated `prev`s) change nothing, and `next` requests `goTo` of
the successor index. -/
theorem claim5_next_prev_boundary_witness :
    prev (initEngine 3 true true 0 "") = initEngine 3 true true 0 "" ∧
    Nat.iterate prev 5 (initEngine 3 true true 0 "") = initEngine 3 true true 0 "" ∧
    next (initEngine 3 true true 0 "") =
      goTo ((initEngine 3 true true 0 "").currentIndex + 1)
        (initEngine 3 true true 0 "") :=
  ⟨(claim5_next_prev_boundary (initEngine 3 true true 0 "")).2.2.1
      (Or.inr (by decide)),
   (claim5_next_prev_boundary (initEngine 3 true true 0 "")).2.2.2.2.1 (by decide) 5,
   (claim5_next_prev_boundary (initEngine 3 true true 0 "")).2.1 (by decide) (by decide)⟩

/-- Claim C7: for a non-negative viewport width, a non-interactive
click right of 65% of the width performs `next`, one left of 35%
performs `prev`, one in the middle zone does nothing, and a click on an
interactive element does nothing regardless of its position. -/
theorem claim7_click_zones (s : Engine) (x w : ℚ) (hw : 0 ≤ w) :
    handleClick true x w s = s ∧
    (w * (65 / 100) < x → handleClick false x w s = next s) ∧
    (x < w * (35 / 100) → handleClick false x w s = prev s) ∧
    (x ≤ w * (65 / 100) → w * (35 / 100) ≤ x → handleClick false x w s = s) := by
  refine ⟨by unfold handleClick; rw [if_pos rfl], ?_, ?_, ?_⟩
  · intro h
    unfold handleClick
    rw [if_neg (by simp), if_pos h]
  · intro h
    unfold handleClick
    rw [if_neg (by simp), if_neg (by linarith), if_pos h]
  · intro h1 h2
    unfold handleClick
    rw [if_neg (by simp), if_neg (by linarith), if_neg (by linarith)]

/-- Witness for C7: the 1000 px scenario — x=800 advances, x=200
retreats, x=500 does nothing, x=800 on an interactive element does
nothing; running the advancing click to completion lands on index 1. -/
theorem claim7_click_zones_witness :
    handleClick false 800 1000 (initEngine 5 true true 0 "") =
      next (initEngine 5 true true 0 "") ∧
    handleClick false 200 1000 (initEngine 5 true true 0 "") =
      prev (initEngine 5 true true 0 "") ∧
    handleClick false 500 1000 (initEngine 5 true true 0 "") =
      initEngine 5 true true 0 "" ∧
    handleClick true 800 1000 (initEngine 5 true true 0 "") =
      initEngine 5 true true 0 "" ∧
    (run (initEngine 5 true true 0 "")
      [Event.click false 800 1000, Event.timer, Event.timer]).currentIndex = 1 ∧
    run (initEngine 5 true true 0 "") [Event.click false 500 1000] =
      initEngine 5 true true 0 "" :=
  ⟨(claim7_click_zones (initEngine 5 true true 0 "") 800 1000 (by norm_num)).2.1
      (by norm_num),
   (claim7_click_zones (initEngine 5 true true 0 "") 200 1000 (by norm_num)).2.2.1
      (by norm_num),
   (claim7_click_zones (initEngine 5 true true 0 "") 500 1000 (by norm_num)).2.2.2
      (by norm_num) (by norm_num),
   (claim7_click_zones (initEngine 5 true true 0 "") 800 1000 (by norm_num)).1,
   by norm_num [run, step, initEngine, handleClick, next, goTo, fire, updateProgress,
     updateCounter, animateSection],
   by norm_num [run, step, initEngine, handleClick, next, goTo, fire, updateProgress,
     updateCounter, animateSection]⟩

/-- Claim C8: a touch gesture navigates exactly when the horizontal
displacement dominates the vertical one and exceeds 50 px — `next` on a
leftward swipe, `prev` on a rightward one — and otherwise leaves the
engine exactly as the touch start left it. -/
theorem claim8_touch_swipe (s : Engine) (sx sy ex ey : ℚ) :
    (|sx - ex| > |sy - ey| ∧ |sx - ex| > 50 →
      touchEnd ex ey (touchStart sx sy s) =
        if sx - ex > 0 then next (touchStart sx sy s)
        else prev (touchStart sx sy s)) ∧
    (¬(|sx - ex| > |sy - ey| ∧ |sx - ex| > 50) →
      touchEnd ex ey (touchStart sx sy s) = touchStart sx sy s) := by
  constructor
  · intro h
    show (if |sx - ex| > |sy - ey| ∧ |sx - ex| > 50 then
        if sx - ex > 0 then next (touchStart sx sy s) else prev (touchStart sx sy s)
      else touchStart sx sy s) = _
    rw [if_pos h]
  · intro h
    show (if |sx - ex| > |sy - ey| ∧ |sx - ex| > 50 then
        if sx - ex > 0 then next (touchStart sx sy s) else prev (touchStart sx sy s)
      else touchStart sx sy s) = _
    rw [if_neg h]

/-- Witness for C8: the touch from (300,200) to (100,210) performs one
`next` and, run to completion, lands on index 1; the touch from
(300,200) to (290,210) does not navigate. -/
theorem claim8_touch_swipe_witness :
    touchEnd 100 210 (touchStart 300 200 (initEngine 5 true true 0 "")) =
      next (touchStart 300 200 (initEngine 5 true true 0 "")) ∧
    touchEnd 290 210 (touchStart 300 200 (initEngine 5 true true 0 "")) =
      touchStart 300 200 (initEngine 5 true true 0 "") ∧
    (run (initEngine 5 true true 0 "")
      [Event.touchstart 300 200, Event.touchend 100 210,
        Event.timer, Event.timer]).currentIndex = 1 ∧
    (run (initEngine 5 true true 0 "")
      [Event.touchstart 300 200, Event.touchend 290 210]).currentIndex = 0 := by
  refine ⟨?_, ?_,
    by norm_num [run, step, initEngine, touchStart, touchEnd, next, goTo, fire,
      updateProgress, updateCounter, animateSection],
    by norm_num [run, step, initEngine, touchStart, touchEnd, next, goTo, fire,
      updateProgress, updateCounter, animateSection]⟩
  · have h := (claim8_touch_swipe (initEngine 5 true true 0 "") 300 200 100 210).1
      (by norm_num)
    rw [if_pos (show (300 : ℚ) - 100 > 0 by norm_num)] at h
    exact h
  · exact (claim8_touch_swipe (initEngine 5 true true 0 "") 300 200 290 210).2
      (by norm_num)

/-- Claim C9: with zero sections the controller is permanently inert:
no section active, listeners not attached, no animation run, both
widgets left exactly as the markup provided them, and every event
sequence leaves the state unchanged. -/
theorem claim9_zero_sections_inert (hp hc : Bool) (p0 : ℚ) (c0 : String) :
    (initEngine 0 hp hc p0 c0).active = [] ∧
    (initEngine 0 hp hc p0 c0).listeners = false ∧
    (initEngine 0 hp hc p0 c0).animLog = [] ∧
    (initEngine 0 hp hc p0 c0).progressFill = (if hp then some p0 else none) ∧
    (initEngine 0 hp hc p0 c0).pageCounter = (if hc then some c0 else none) ∧
    ∀ es : List Event, run (initEngine 0 hp hc p0 c0) es = initEngine 0 hp hc p0 c0 :=
  ⟨by simp [initEngine], by simp [initEngine], by simp [initEngine],
   by simp [initEngine], by simp [initEngine], run_inert hp hc p0 c0⟩

/-- Claim C10: the zone comparisons are strict — for any non-negative
viewport width, clicks at exactly 65% and exactly 35% of the width fall
in the dead zone and trigger no navigation. -/
theorem claim10_boundary_clicks (s : Engine) (w : ℚ) (hw : 0 ≤ w) (b : Bool) :
    handleClick b (w * (65 / 100)) w s = s ∧
    handleClick b (w * (35 / 100)) w s = s := by
  have h1 : ¬ w * (65 / 100) < w * (35 / 100) := by
    intro h
    linarith
  cases b with
  | true =>
    exact ⟨by unfold handleClick; rw [if_pos rfl],
      by unfold handleClick; rw [if_pos rfl]⟩
  | false =>
    constructor
    · unfold handleClick
      rw [if_neg (by simp), if_neg (lt_irrefl _), if_neg h1]
    · unfold handleClick
      rw [if_neg (by simp), if_neg h1, if_neg (lt_irrefl _)]

/-- Witness for C10: on a 1000 px viewport, non-interactive clicks at
exactly x=650 and x=350 change nothing. -/
theorem claim10_boundary_clicks_witness :
    handleClick false (1000 * (65 / 100)) 1000 (initEngine 5 true true 0 "") =
      initEngine 5 true true 0 "" ∧
    handleClick false (1000 * (35 / 100)) 1000 (initEngine 5 true true 0 "") =
      initEngine 5 true true 0 "" :=
  claim10_boundary_clicks (initEngine 5 true true 0 "") 1000 (by norm_num) false

/-- Claim C1: after initialization with at least one section,
`currentIndex` of every reachable state lies in `[0, sectionCount-1]`,
and no `goTo` call (with any integer argument), however the transition
then unfolds, ever moves `currentIndex` out of that range. -/
theorem claim1_range_invariant (n : Nat) (hp hc : Bool) (p0 : ℚ) (c0 : String)
    (s : Engine) (hn : 1 ≤ n) (hr : Reachable n hp hc p0 c0 s) :
    (0 ≤ s.currentIndex ∧ s.currentIndex < (n : Int)) ∧
    ∀ (t : Int) (es : List Event),
      0 ≤ (run (goTo t s) es).currentIndex ∧
      (run (goTo t s) es).currentIndex < (n : Int) := by
  have hn0 : n ≠ 0 := by omega
  have hinv := reachable_inv hn0 hr
  refine ⟨⟨hinv.2.2.2.2.1, hinv.2.2.2.2.2.1⟩, ?_⟩
  intro t es
  have hre : run (goTo t s) es = run s (Event.callGoTo t :: es) := rfl
  rw [hre]
  have hinv2 := reachable_inv hn0 (reachable_run hr (Event.callGoTo t :: es))
  exact ⟨hinv2.2.2.2.2.1, hinv2.2.2.2.2.2.1⟩

/-- Witness for C1: the fresh 2-section engine is in range, and stays
so under any `goTo` and any continuation. -/
theorem claim1_range_invariant_witness :
    (0 ≤ (initEngine 2 true true 0 "").currentIndex ∧
      (initEngine 2 true true 0 "").currentIndex < ((2 : Nat) : Int)) ∧
    ∀ (t : Int) (es : List Event),
      0 ≤ (run (goTo t (initEngine 2 true true 0 "")) es).currentIndex ∧
      (run (goTo t (initEngine 2 true true 0 "")) es).currentIndex < ((2 : Nat) : Int) :=
  claim1_range_invariant 2 true true 0 "" (initEngine 2 true true 0 "")
    (by norm_num) ⟨[], rfl⟩

/-- Claim C2: a second `next` issued while the transition lock of the
first is still held is dropped (not queued): `next (next s) = next s`,
and running the pair to completion advances the index by exactly one. -/
theorem claim2_debounce (s : Engine)
    (hT : s.isTransitioning = false)
    (h0 : 0 ≤ s.currentIndex)
    (h1 : s.currentIndex + 1 < (s.totalSections : Int)) :
    next (next s) = next s ∧
    (run s [Event.callNext, Event.callNext, Event.timer, Event.timer]).currentIndex
      = s.currentIndex + 1 ∧
    (run s [Event.callNext, Event.callNext, Event.timer, Event.timer]).isTransitioning
      = false := by
  have hacc : next s = { s with
      isTransitioning := true
      active := s.active.set s.currentIndex.toNat false
      pendingTimer := some (Timer.activate (s.currentIndex + 1).toNat) } := by
    rw [next_accepted hT (by omega),
      goTo_accepted (by omega) (by omega) (by omega) hT]
  have hnn : next (next s) = next s := by
    rw [hacc]
    unfold next
    rw [if_pos (Or.inl rfl)]
  have hrun : run s [Event.callNext, Event.callNext, Event.timer, Event.timer]
      = fire (fire (next (next s))) := rfl
  refine ⟨hnn, ?_, ?_⟩
  · rw [hrun, hnn, hacc]
    simp only [fire, updateCounter, updateProgress, animateSection]
    simp [Int.toNat_of_nonneg (show (0 : Int) ≤ s.currentIndex + 1 by omega)]
  · rw [hrun, hnn, hacc]
    simp only [fire, updateCounter, updateProgress, animateSection]

/-- Witness for C2: from the fresh 2-section engine at index 0, the
double `next` with its timers ends at index 1 with the lock clear. -/
theorem claim2_debounce_witness :
    next (next (initEngine 2 true true 0 "")) = next (initEngine 2 true true 0 "") ∧
    (run (initEngine 2 true true 0 "")
      [Event.callNext, Event.callNext, Event.timer, Event.timer]).currentIndex
      = (initEngine 2 true true 0 "").currentIndex + 1 ∧
    (run (initEngine 2 true true 0 "")
      [Event.callNext, Event.callNext, Event.timer, Event.timer]).isTransitioning
      = false :=
  claim2_debounce (initEngine 2 true true 0 "") (by decide) (by decide) (by decide)

/-- Claim C4: in every reachable state outside the
deactivation-to-activation window (no activation callback pending),
exactly one section carries the active flag — or zero when the engine
was initialized with zero sections. -/
theorem claim4_single_active (n : Nat) (hp hc : Bool) (p0 : ℚ) (c0 : String)
    (s : Engine) (hr : Reachable n hp hc p0 c0 s)
    (hw : ∀ t, s.pendingTimer ≠ some (Timer.activate t)) :
    s.active.count true = if n = 0 then 0 else 1 := by
  by_cases hn : n = 0
  · subst hn
    obtain ⟨es, rfl⟩ := hr
    rw [run_inert]
    simp [initEngine]
  · rw [if_neg hn]
    obtain ⟨hts, hlen, hpf, hpc, h0, h1, hnone, hact, hrel⟩ := reachable_inv hn hr
    rcases hpt : s.pendingTimer with _ | ti
    · obtain ⟨-, hac⟩ := hnone hpt
      rw [hac]
      exact count_activeOnly n _ (by omega)
    · cases ti with
      | activate u => exact absurd hpt (hw u)
      | release =>
        obtain ⟨-, hac⟩ := hrel hpt
        rw [hac]
        exact count_activeOnly n _ (by omega)

/-- Witness for C4: the fresh 3-section engine has exactly one active
section. -/
theorem claim4_single_active_witness :
    (initEngine 3 true true 0 "").active.count true = if 3 = 0 then 0 else 1 :=
  claim4_single_active 3 true true 0 "" (initEngine 3 true true 0 "") ⟨[], rfl⟩
    (by
      intro t h
      simp [initEngine, animateSection, updateCounter, updateProgress] at h)

/-- Claim C6: in every reachable state of an engine with `n ≥ 1`
sections, the progress fill (when the widget exists) equals
`(currentIndex+1)/n * 100` percent and the page counter (when it
exists) holds the fragment whose text is `"{currentIndex+1} / {n}"` —
the widgets are pure projections of the navigation state, never
independently mutated. -/
theorem claim6_projection (n : Nat) (hp hc : Bool) (p0 : ℚ) (c0 : String)
    (s : Engine) (hn : 1 ≤ n) (hr : Reachable n hp hc p0 c0 s) :
    s.progressFill =
      (if hp then some (((s.currentIndex + 1 : Int) : ℚ) / (n : ℚ) * 100) else none) ∧
    s.pageCounter = (if hc then some (counterHTML s.currentIndex n) else none) ∧
    textContent (counterHTML s.currentIndex n)
      = toString (s.currentIndex + 1) ++ " / " ++ toString n := by
  have hinv := reachable_inv (by omega) hr
  refine ⟨?_, hinv.2.2.2.1, textContent_counterHTML _ _⟩
  rw [hinv.2.2.1]
  simp [percent]

/-- Witness for C6: the fresh 5-section engine shows 20 percent and the
counter text "1 / 5". -/
theorem claim6_projection_witness :
    (initEngine 5 true true 0 "").progressFill =
      (if true then
        some ((((initEngine 5 true true 0 "").currentIndex + 1 : Int) : ℚ) /
          ((5 : Nat) : ℚ) * 100) else none) ∧
    (initEngine 5 true true 0 "").pageCounter =
      (if true then
        some (counterHTML (initEngine 5 true true 0 "").currentIndex 5) else none) ∧
    textContent (counterHTML (initEngine 5 true true 0 "").currentIndex 5)
      = toString ((initEngine 5 true true 0 "").currentIndex + 1) ++ " / " ++
          toString (5 : Nat) :=
  claim6_projection 5 true true 0 "" (initEngine 5 true true 0 "")
    (by norm_num) ⟨[], rfl⟩

end SlideEngine
